import Mathlib

/-!
Verification of the koishi-forward cross-platform message relay core
(`src/core.ts`). The pipeline registered on `message-created` is embedded as
pure Lean functions: external effects (database query, bot registry, regex
engine, moderation HTTP call, quoted-message fetch, message send) are supplied
through a `World` record of oracles, and the async listener body becomes a
function into `Except String PipelineResult` where an `error` value models a
rejected promise (an exception escaping the listener).
-/

namespace KoishiForward

/-- JavaScript string truthiness for an optional string field:
`undefined` and the empty string are falsy. -/
def strTruthy : Option String → Bool
  | some s => s ≠ ""
  | none => false

/-- JavaScript `a || b` on an optional string `a` and a string `b`:
yields `a`'s value when truthy, else `b`. -/
def jsOr (a : Option String) (b : String) : String :=
  match a with
  | some s => if s = "" then b else s
  | none => b

/-- Rendering an optional string inside a JS template literal:
`undefined` prints as the string `"undefined"`. -/
def jsTemplate : Option String → String
  | some s => s
  | none => "undefined"

/-- Shallow embedding of koishi `h` message elements, restricted to the tags
this plugin constructs or inspects (`text`, `at`, `face`, `audio`, `image`,
`author`, `quote`); every other tag is carried opaquely by `other`. -/
inductive Element where
  | text (content : String)
  | at_ (id : String) (name : Option String)
  | face (name : Option String)
  | audio
  | image
  | author (name : String) (avatar : Option String)
  | quote (id : String)
  | other (tag : String)
deriving DecidableEq, Repr

/-- Override table passed to `transform` (the `rules` argument of
`h.transform` spread over the defaults). Only the `at` visitor is ever
overridden by the plugin, so only it is modelled. -/
structure TransformRules where
  atRule : Option (String → Option String → Element)

/-- The empty override table (a call such as `transform(elements)`). -/
def noRules : TransformRules := ⟨none⟩

/-- Default `at` visitor of `transform`:
`const name = attrs.name || attrs.id; return h.text(`@${name}`)`. -/
def defaultAt (id : String) (name : Option String) : Element :=
  Element.text ("@" ++ jsOr name id)

/-- Per-element action of `transform` (`src/core.ts` lines 31-52):
`image` is dropped, `at` goes through the override or the default visitor,
`face` becomes `[name or 表情]`, `audio` becomes `[语音]`, everything else
passes through unchanged. -/
def transformElem (rules : TransformRules) : Element → Option Element
  | Element.image => none
  | Element.at_ id name =>
      some ((rules.atRule.getD defaultAt) id name)
  | Element.face name => some (Element.text ("[" ++ jsOr name "表情" ++ "]"))
  | Element.audio => some (Element.text "[语音]")
  | e => some e

/-- `transform(source, rules)` from `src/core.ts`: map `transformElem`
over the sequence, dropping elements whose visitor returns `null`. -/
def transform (source : List Element) (rules : TransformRules) : List Element :=
  source.filterMap (transformElem rules)

/-- A persisted `myrtus_forward_sent` relay record. Fields named as the
table columns (`from` is a Lean keyword, hence `from_`); the `time` and
auto-incremented `id` columns carry no pipeline logic and are omitted. -/
structure Sent where
  from_ : String
  to_ : String
  from_sid : String
  to_sid : String
  from_channel_id : String
  to_channel_id : String
deriving DecidableEq, Repr

/-- A `Universal.User` as used here: id plus optional name/nick. -/
structure QuoteUser where
  id : String
  name : Option String
  nick : Option String
deriving DecidableEq, Repr

/-- The `quote` field of the inbound message: quoted message id, its
author when present on the event, its content elements (`elements = []`
is the destructuring default), and `member?.nick` of the quoted member. -/
structure QuoteData where
  id : String
  user : Option QuoteUser
  elements : List Element
  memberNick : Option String
deriving DecidableEq, Repr

/-- A Discord embed as read from `event._data.d.embeds`. -/
structure Embed where
  title : Option String
  description : Option String
deriving DecidableEq, Repr

/-- The inbound session/event data the listener reads. `username` is
`session.username` (computed by the framework), `userAvatar` is
`event.user.avatar`. -/
structure Event where
  platform : String
  selfId : String
  channelId : String
  messageId : String
  userId : String
  username : String
  userAvatar : Option String
  elements : List Element
  quote : Option QuoteData
  embeds : List Embed

/-- A source endpoint (`RuleSource`): the selectors are irrelevant once the
listener has fired, so only the fields the listener body reads are kept. -/
structure RuleSource where
  platform : String
  selfId : String
  channelId : String
  name : Option String
  blockingWords : List String
  onlyQuote : Bool

/-- A target endpoint (`RuleTarget`) as it appears in the resolved target
list (disabled targets were already filtered out at resolution). -/
structure RuleTarget where
  platform : String
  selfId : String
  channelId : String
  simulateOriginal : Bool

/-- `Universal.Status` of a bot instance. -/
inductive Status where
  | online
  | offline
  | connect
  | disconnect
  | reconnect
deriving DecidableEq, Repr

/-- Outcome of the moderation POST (`src/core.ts` lines 176-206), seen
from the pipeline: the fetch throws (network error, or the AbortController
fires at 500 ms), the response is non-2xx, the body fails to parse as JSON
(`data = null`), or it parses with an optional string `context` field. -/
inductive ModOutcome where
  | fetchError
  | notOk
  | badJson
  | jsonContext (context : Option String)
deriving DecidableEq, Repr

/-- The external world the listener body interacts with.
`regexTest pat s` is `new RegExp(pat).test(s)`; `fetchedQuoteUser` is the
result of `(await session.bot.getMessage(channelId, quote.id)).user`, with
`error` modelling a rejected fetch (or a message without a user);
`send i` is the result of `bot.sendMessage` for the target at index `i`. -/
structure World where
  db : List Sent
  bots : String → Option Status
  regexTest : String → String → Bool
  modOutcome : ModOutcome
  fetchedQuoteUser : Except String QuoteUser
  send : Nat → Except String (List String)

/-- `${platform}:${selfId}` — a koishi sid. -/
def sidOf (platform selfId : String) : String := platform ++ ":" ++ selfId

/-- Why the listener returned early without forwarding. -/
inductive DropReason where
  | blockingWord
  | quoteOnlyNoRecord
  | quoteOnlyNotBot
  | quoteOnlyNoQuote
  | emptyText
deriving DecidableEq, Repr

/-- One attempted delivery: the loop index, the resolved target sid and
channel, the pacing delay awaited before this send (`none` at index 0),
and the assembled element payload. -/
structure SendAction where
  index : Nat
  targetSid : String
  channelId : String
  delayBefore : Option Nat
  payload : List Element
deriving DecidableEq, Repr

/-- Accumulated outcome of the fan-out loop: attempted sends in loop
order, sids skipped with a warning (bot missing or not online), errors
logged from failed sends, and the `Sent` rows staged for the final
batch upsert. -/
structure FanoutResult where
  sends : List SendAction
  skippedBots : List String
  sendErrors : List String
  sentRows : List Sent
deriving DecidableEq, Repr

/-- Result of one listener invocation that did not throw. -/
inductive PipelineResult where
  | dropped (r : DropReason)
  | done (f : FanoutResult)
deriving DecidableEq, Repr

/-- Blocking-word filter (`src/core.ts` lines 98-102): some configured
pattern matches the raw content of some text element of the session. -/
def blockedBy (w : World) (cfg : RuleSource) (elems : List Element) : Bool :=
  cfg.blockingWords.any fun pat =>
    elems.any fun e =>
      match e with
      | Element.text c => w.regexTest pat c
      | _ => false

/-- `quote.user ?? (await session.bot.getMessage(...)).user`: take the
author from the event when present, else fetch it. -/
def resolveQuoteUser (w : World) (q : QuoteData) : Except String QuoteUser :=
  match q.user with
  | some u => Except.ok u
  | none => w.fetchedQuoteUser

/-- The database query of the quote stage. When the quoted author is the
bot itself the filter is `{to: quote.id, to_sid: sid, to_channel_id:
event.channel.id}`; otherwise it is `{from: quote.id, from_sid: sid,
from_channel_id: event.channel.id}` (lines 114-131). -/
def lookupRows (db : List Sent) (ev : Event) (qid : String) (botQuoted : Bool) :
    List Sent :=
  if botQuoted then
    db.filter fun r =>
      r.to_ == qid && r.to_sid == sidOf ev.platform ev.selfId
        && r.to_channel_id == ev.channelId
  else
    db.filter fun r =>
      r.from_ == qid && r.from_sid == sidOf ev.platform ev.selfId
        && r.from_channel_id == ev.channelId

/-- Result of the quote-classification stage. -/
inductive QuoteOutcome where
  | drop (r : DropReason)
  | noQuote
  | quoted (u : QuoteUser) (rows : List Sent)
deriving DecidableEq, Repr

/-- Quote classification (`src/core.ts` lines 104-139): no quote is a
drop only under `onlyQuote`; a quote of the bot itself queries by target
columns and drops under `onlyQuote` when nothing matches; any other
quoted author drops under `onlyQuote`, else queries by source columns. -/
def quoteStage (w : World) (cfg : RuleSource) (ev : Event) :
    Except String QuoteOutcome :=
  match ev.quote with
  | none =>
      if cfg.onlyQuote then Except.ok (QuoteOutcome.drop DropReason.quoteOnlyNoQuote)
      else Except.ok QuoteOutcome.noQuote
  | some q =>
      match resolveQuoteUser w q with
      | Except.error e => Except.error e
      | Except.ok u =>
          if ev.selfId = u.id then
            let rows := lookupRows w.db ev q.id true
            if cfg.onlyQuote && rows.isEmpty then
              Except.ok (QuoteOutcome.drop DropReason.quoteOnlyNoRecord)
            else
              Except.ok (QuoteOutcome.quoted u rows)
          else if cfg.onlyQuote then
            Except.ok (QuoteOutcome.drop DropReason.quoteOnlyNotBot)
          else
            Except.ok (QuoteOutcome.quoted u (lookupRows w.db ev q.id false))

/-- The `at` override passed for the main body transform (lines 142-151):
under `onlyQuote`, an `@` of the bot itself is blanked. -/
def mainAtRule (cfg : RuleSource) (ev : Event) :
    String → Option String → Element :=
  fun id name =>
    if cfg.onlyQuote && id == ev.selfId then Element.text ""
    else Element.text ("@" ++ jsOr name id)

/-- Text pushed for one Discord embed (lines 155-162): truthy title and
truthy description, joined by a newline; nothing when both are falsy. -/
def embedText (e : Embed) : Option String :=
  let buffer :=
    (if strTruthy e.title then [e.title.getD ""] else [])
      ++ (if strTruthy e.description then [e.description.getD ""] else [])
  if buffer.isEmpty then none else some (String.intercalate "\n" buffer)

/-- The transformed element sequence (Step A, lines 142-163): the main
body transform with the `at` override, then, on Discord, one extra text
element per embed with truthy title or description. -/
def filteredElements (cfg : RuleSource) (ev : Event) : List Element :=
  let base := transform ev.elements ⟨some (mainAtRule cfg ev)⟩
  if ev.platform = "discord" then
    base ++ ev.embeds.filterMap (fun e => (embedText e).map Element.text)
  else base

/-- Step B (lines 167-169): flatten a sequence into plain text, mapping
non-text elements to the empty string. -/
def plainTextOf (elems : List Element) : String :=
  String.join (elems.map fun e =>
    match e with
    | Element.text c => c
    | _ => "")

/-- The emptiness test of Step B (`!plainText.trim()`, line 172): a JS
string trims to the empty string exactly when every character is
whitespace, so the check is embedded as an all-whitespace test. -/
def jsBlank (s : String) : Bool := s.data.all Char.isWhitespace

/-- Step C (lines 176-206): the delivered text after the moderation call.
Only a 2xx response whose parsed body has a string `context` field
replaces the text; every failure falls back to the input. -/
def moderate (o : ModOutcome) (plainText : String) : String :=
  match o with
  | ModOutcome.jsonContext (some s) => s
  | _ => plainText

/-- The hard-coded replacement avatar URL. -/
def defaultAvatar : String := "https://discord.com/assets/5d6a5e9d7d77ac29116e.png"

/-- Header construction per target (lines 226-242): an `author` element
when the target requests `simulateOriginal` and its platform is discord —
with the avatar replaced by `defaultAvatar` exactly when the source
platform is telegram — else the text banner `[<name> - <username>]\n`
(the `<name> - ` part only when the source has a truthy name). -/
def buildHeader (cfg : RuleSource) (ev : Event) (t : RuleTarget) : Element :=
  if t.simulateOriginal && t.platform == "discord" then
    let avatar := if ev.platform = "telegram" then some defaultAvatar else ev.userAvatar
    Element.author ("[" ++ cfg.name.getD "" ++ "] " ++ ev.username) avatar
  else
    let altName := if strTruthy cfg.name then cfg.name.getD "" ++ " - " else ""
    Element.text ("[" ++ altName ++ ev.username ++ "]\n")

/-- Per-target row selection (lines 258-278): when the bot was quoted,
find the first fetched row whose source sid/channel match this target and
quote its `from`; otherwise match on target sid/channel and quote its
`to`. -/
def targetQuoteId (ev : Event) (u : QuoteUser) (rows : List Sent)
    (tsid tchan : String) : Option String :=
  if ev.selfId = u.id then
    (rows.find? fun r => r.from_sid == tsid && r.from_channel_id == tchan).map
      (fun r => r.from_)
  else
    (rows.find? fun r => r.to_sid == tsid && r.to_channel_id == tchan).map
      (fun r => r.to_)

/-- `member?.nick || qUser.nick || qUser.name` (line 290) interpolated
into the fallback banner. `qUser` is `event.message.quote.user` read
directly off the event: when it is absent and `member?.nick` is falsy,
reading `.nick` of `undefined` throws a TypeError. -/
def quoteDisplayName (q : QuoteData) : Except String String :=
  if strTruthy q.memberNick then Except.ok (q.memberNick.getD "")
  else
    match q.user with
    | none => Except.error "TypeError: Cannot read properties of undefined"
    | some u =>
        if strTruthy u.nick then Except.ok (u.nick.getD "")
        else Except.ok (jsTemplate u.name)

/-- Insertion of the structural quote (lines 280-286): after the header
when it is an `author` element, else in front of the whole payload. -/
def insertQuote (header : Element) (finalText : String) (qid : String) :
    List Element :=
  match header with
  | Element.author n a =>
      [Element.author n a, Element.quote qid, Element.text finalText]
  | h => [Element.quote qid, h, Element.text finalText]

/-- The payload assembled for one target (lines 251-297): header plus
moderated text; when the inbound message quoted something, either a
structural quote via `insertQuote` or the textual fallback
`Re <name> ⌈…⌋` in front. May throw (see `quoteDisplayName`). -/
def buildPayload (ev : Event) (finalText : String)
    (qinfo : Option (QuoteUser × List Sent)) (header : Element)
    (tsid tchan : String) : Except String (List Element) :=
  match ev.quote, qinfo with
  | some q, some (u, rows) =>
      match targetQuoteId ev u rows tsid tchan with
      | some qid => Except.ok (insertQuote header finalText qid)
      | none =>
          match quoteDisplayName q with
          | Except.error e => Except.error e
          | Except.ok name =>
              Except.ok
                ([Element.text ("Re " ++ name ++ " ⌈")]
                  ++ transform q.elements noRules
                  ++ [Element.text "⌋\n", header, Element.text finalText])
  | _, _ => Except.ok [header, Element.text finalText]

/-- Processing of the target at loop index `i` (lines 211-316): skip with
a warning when the bot is absent or not online; otherwise pace (except at
index 0, with the per-platform delay defaulting to 200 ms), build the
payload, send it, and on success stage one `Sent` row per returned
message id; a send error is logged, not thrown. -/
def processTarget (w : World) (cfg : RuleSource) (ev : Event)
    (finalText : String) (dm : String → Option Nat)
    (qinfo : Option (QuoteUser × List Sent)) (i : Nat) (t : RuleTarget) :
    Except String FanoutResult :=
  let tsid := sidOf t.platform t.selfId
  match w.bots tsid with
  | none => Except.ok ⟨[], [tsid], [], []⟩
  | some st =>
      if st ≠ Status.online then Except.ok ⟨[], [tsid], [], []⟩
      else
        let header := buildHeader cfg ev t
        let delayBefore :=
          if i = 0 then none else some ((dm t.platform).getD 200)
        match buildPayload ev finalText qinfo header tsid t.channelId with
        | Except.error e => Except.error e
        | Except.ok payload =>
            let action : SendAction := ⟨i, tsid, t.channelId, delayBefore, payload⟩
            match w.send i with
            | Except.error e => Except.ok ⟨[action], [], [e], []⟩
            | Except.ok msgIds =>
                Except.ok ⟨[action], [], [],
                  msgIds.map fun m =>
                    { from_ := ev.messageId
                      to_ := m
                      from_sid := sidOf ev.platform ev.selfId
                      to_sid := tsid
                      from_channel_id := ev.channelId
                      to_channel_id := t.channelId }⟩

/-- The fan-out loop over the resolved targets, from loop index `i`,
concatenating each target's contribution in order. -/
def fanout (w : World) (cfg : RuleSource) (ev : Event) (finalText : String)
    (dm : String → Option Nat) (qinfo : Option (QuoteUser × List Sent)) :
    Nat → List RuleTarget → Except String FanoutResult
  | _, [] => Except.ok ⟨[], [], [], []⟩
  | i, t :: ts =>
      match processTarget w cfg ev finalText dm qinfo i t with
      | Except.error e => Except.error e
      | Except.ok head =>
          match fanout w cfg ev finalText dm qinfo (i + 1) ts with
          | Except.error e => Except.error e
          | Except.ok rest =>
              Except.ok ⟨head.sends ++ rest.sends,
                head.skippedBots ++ rest.skippedBots,
                head.sendErrors ++ rest.sendErrors,
                head.sentRows ++ rest.sentRows⟩

/-- The whole listener body (`src/core.ts` lines 94-322) for one resolved
rule: blocking-word filter, quote classification, transform plus Discord
embeds, empty-text check, moderation, fan-out. The staged rows of the
`done` result are exactly what the final batch upsert writes (it is
skipped when they are empty). -/
def pipeline (w : World) (cfg : RuleSource) (targets : List RuleTarget)
    (dm : String → Option Nat) (ev : Event) :
    Except String PipelineResult :=
  if blockedBy w cfg ev.elements then
    Except.ok (PipelineResult.dropped DropReason.blockingWord)
  else
    match quoteStage w cfg ev with
    | Except.error e => Except.error e
    | Except.ok (QuoteOutcome.drop r) => Except.ok (PipelineResult.dropped r)
    | Except.ok qres =>
        let qinfo : Option (QuoteUser × List Sent) :=
          match qres with
          | QuoteOutcome.quoted u rows => some (u, rows)
          | _ => none
        let plainText := plainTextOf (filteredElements cfg ev)
        if jsBlank plainText then
          Except.ok (PipelineResult.dropped DropReason.emptyText)
        else
          let finalText := moderate w.modOutcome plainText
          match fanout w cfg ev finalText dm qinfo 0 targets with
          | Except.error e => Except.error e
          | Except.ok f => Except.ok (PipelineResult.done f)

/-- The sends a pipeline run performed (none when it dropped or threw). -/
def resultSends : Except String PipelineResult → List SendAction
  | Except.ok (PipelineResult.done f) => f.sends
  | _ => []

/-- The relay records a pipeline run persisted (none when it dropped or
threw). -/
def resultRecords : Except String PipelineResult → List Sent
  | Except.ok (PipelineResult.done f) => f.sentRows
  | _ => []

/-- The correlation lookup direction as claim C1 words it (spec §4.4):
when the quoted author is the bot itself, rows are selected by the
*source* columns (`from`, `from_sid`, `from_channel_id`); otherwise by
the *target* columns. Stated for comparison with `lookupRows`, which
embeds the source code. -/
def lookupRowsC1Spec (db : List Sent) (ev : Event) (qid : String)
    (botQuoted : Bool) : List Sent :=
  if botQuoted then
    db.filter fun r =>
      r.from_ == qid && r.from_sid == sidOf ev.platform ev.selfId
        && r.from_channel_id == ev.channelId
  else
    db.filter fun r =>
      r.to_ == qid && r.to_sid == sidOf ev.platform ev.selfId
        && r.to_channel_id == ev.channelId

/-- Header construction as claim C9 words it: identical to `buildHeader`
except that the default avatar is substituted exactly when the source
platform provides no avatar (rather than exactly when the source platform
is telegram). Stated for comparison with `buildHeader`, which embeds the
source code. -/
def buildHeaderC9Spec (cfg : RuleSource) (ev : Event) (t : RuleTarget) :
    Element :=
  if t.simulateOriginal && t.platform == "discord" then
    let avatar :=
      match ev.userAvatar with
      | none => some defaultAvatar
      | some a => some a
    Element.author ("[" ++ cfg.name.getD "" ++ "] " ++ ev.username) avatar
  else
    let altName := if strTruthy cfg.name then cfg.name.getD "" ++ " - " else ""
    Element.text ("[" ++ altName ++ ev.username ++ "]\n")

/-- The quoted-message data cannot make the textual fallback banner throw:
either the member nick is truthy or the quoted author is present on the
event (see `quoteDisplayName`). Vacuously true for non-replies. -/
def quoteSafe (ev : Event) : Prop :=
  ∀ q, ev.quote = some q → strTruthy q.memberNick = true ∨ q.user ≠ none

/-- A `QuoteOutcome` is a drop. -/
def QuoteOutcome.isDrop : QuoteOutcome → Bool
  | QuoteOutcome.drop _ => true
  | _ => false

/-- Sample relay record for concrete runs: source message `m1`, received
by bot `s1` on platform `qq`, channel `c1`, was relayed as message `t1`
by bot `s2` on platform `tg`, channel `c2`. -/
def rSample : Sent := ⟨"m1", "t1", "qq:s1", "tg:s2", "c1", "c2"⟩

/-- Sample world: one relay record, every bot online, no regex hit, a 2xx
moderation response without a `context` field, a failing quoted-message
fetch, and sends returning the single id `o1`. -/
def wSample : World :=
  { db := [rSample]
    bots := fun _ => some Status.online
    regexTest := fun _ _ => false
    modOutcome := ModOutcome.jsonContext none
    fetchedQuoteUser := Except.error "unused"
    send := fun _ => Except.ok ["o1"] }

/-- The bot identity `s2` as a quoted author. -/
def uBot : QuoteUser := ⟨"s2", some "bot", none⟩

/-- A human quoted author distinct from every bot id used in samples. -/
def uAlice : QuoteUser := ⟨"u7", some "alice", none⟩

/-- Sample source endpoint listening on `tg:s2`, channel `c2`. -/
def cfgSample : RuleSource := ⟨"tg", "s2", "c2", some "src", [], false⟩

/-- Sample source endpoint listening on `qq:s1`, channel `c1` (the channel
`rSample` originated from). -/
def cfgSampleSrc : RuleSource := ⟨"qq", "s1", "c1", some "src", [], false⟩

/-- Sample inbound reply on `tg:s2`/`c2` quoting the bot's own relay
output `t1`. -/
def evBotReply : Event :=
  { platform := "tg", selfId := "s2", channelId := "c2", messageId := "m2"
    userId := "u7", username := "alice", userAvatar := none
    elements := [Element.text "hi"]
    quote := some ⟨"t1", some uBot, [], none⟩
    embeds := [] }

/-- Sample inbound reply on `qq:s1`/`c1` quoting the original user
message `m1` (a non-bot author). -/
def evUserReply : Event :=
  { platform := "qq", selfId := "s1", channelId := "c1", messageId := "m3"
    userId := "u8", username := "carol", userAvatar := none
    elements := [Element.text "yo"]
    quote := some ⟨"m1", some uAlice, [], none⟩
    embeds := [] }

/-- Sample fan-out target: the `qq:s1` bot posting back into channel `c1`. -/
def tgtSample : RuleTarget := ⟨"qq", "s1", "c1", false⟩

/-- An element is a plain text node. -/
def isText : Element → Prop
  | Element.text _ => True
  | _ => False

instance (e : Element) : Decidable (isText e) := by
  cases e <;> simp [isText] <;> infer_instance

/-- C8. The content transform is idempotent on its own text-only outputs:
an image-free, text-only element sequence is returned unchanged by
`transform` with no overrides. -/
theorem transform_text_only_fixed
    (l : List Element) (h : ∀ e ∈ l, isText e) :
    transform l noRules = l := by
  induction l with
  | nil => rfl
  | cons e tl ih =>
      have he : isText e := h e (List.mem_cons_self e tl)
      have htl : ∀ x ∈ tl, isText x := fun x hx => h x (List.mem_cons_of_mem e hx)
      cases e with
      | text c =>
          simp [transform, List.filterMap, transformElem] at ih ⊢
          exact ih htl
      | _ => exact absurd he (by simp [isText])

/-- Witness for C8 at a concrete two-element text sequence. -/
theorem transform_text_only_fixed_witness :
    transform [Element.text "hello", Element.text "world"] noRules
      = [Element.text "hello", Element.text "world"] :=
  transform_text_only_fixed [Element.text "hello", Element.text "world"]
    (by intro e he; fin_cases he <;> simp [isText])

/-- The fallback display name resolves whenever the member nick is truthy
or the quoted author is present on the event. -/
theorem quoteDisplayName_ok (q : QuoteData)
    (h : strTruthy q.memberNick = true ∨ q.user ≠ none) :
    ∃ n, quoteDisplayName q = Except.ok n := by
  unfold quoteDisplayName
  rcases h with h | h
  · simp [h]
  · cases hu : q.user with
    | none => exact absurd hu h
    | some u =>
        by_cases hm : strTruthy q.memberNick = true
        · simp [hm]
        · simp only [Bool.not_eq_true] at hm
          by_cases hn : strTruthy u.nick = true <;> simp [hm, hn]

/-- Payload assembly never throws for a quote-safe event, and the
assembled payload always carries the moderated text element. -/
theorem buildPayload_ok (ev : Event) (ft : String)
    (qinfo : Option (QuoteUser × List Sent)) (hd : Element)
    (tsid tchan : String) (hsafe : quoteSafe ev) :
    ∃ p, buildPayload ev ft qinfo hd tsid tchan = Except.ok p ∧
      Element.text ft ∈ p := by
  cases hq : ev.quote with
  | none =>
      cases qinfo <;>
        exact ⟨[hd, Element.text ft], by simp [buildPayload, hq], by simp⟩
  | some q =>
      cases qinfo with
      | none => exact ⟨[hd, Element.text ft], by simp [buildPayload, hq], by simp⟩
      | some ur =>
          obtain ⟨u, rows⟩ := ur
          cases hfind : targetQuoteId ev u rows tsid tchan with
          | some qid =>
              refine ⟨insertQuote hd ft qid, by simp [buildPayload, hq, hfind], ?_⟩
              cases hd <;> simp [insertQuote]
          | none =>
              obtain ⟨n, hn⟩ := quoteDisplayName_ok q (hsafe q hq)
              refine ⟨[Element.text ("Re " ++ n ++ " ⌈")]
                  ++ transform q.elements noRules
                  ++ [Element.text "⌋\n", hd, Element.text ft],
                by simp [buildPayload, hq, hfind, hn], by simp⟩

/-- One fan-out step never throws for a quote-safe event; its attempted
send (when any) carries the moderated text element. -/
theorem processTarget_ok (w : World) (cfg : RuleSource) (ev : Event)
    (ft : String) (dm : String → Option Nat)
    (qinfo : Option (QuoteUser × List Sent)) (i : Nat) (t : RuleTarget)
    (hsafe : quoteSafe ev) :
    ∃ f, processTarget w cfg ev ft dm qinfo i t = Except.ok f ∧
      ∀ a ∈ f.sends, Element.text ft ∈ a.payload := by
  cases hb : w.bots (sidOf t.platform t.selfId) with
  | none =>
      exact ⟨⟨[], [sidOf t.platform t.selfId], [], []⟩,
        by simp [processTarget, hb], by simp⟩
  | some st =>
      by_cases hst : st = Status.online
      case neg =>
        exact ⟨⟨[], [sidOf t.platform t.selfId], [], []⟩,
          by simp [processTarget, hb, hst], by simp⟩
      case pos =>
        subst hst
        obtain ⟨p, hp, hmem⟩ :=
          buildPayload_ok ev ft qinfo (buildHeader cfg ev t)
            (sidOf t.platform t.selfId) t.channelId hsafe
        cases hsend : w.send i with
        | error e =>
            refine ⟨⟨[⟨i, sidOf t.platform t.selfId, t.channelId,
                if i = 0 then none else some ((dm t.platform).getD 200), p⟩],
                [], [e], []⟩, by simp [processTarget, hb, hp, hsend], ?_⟩
            intro a ha
            simp only [List.mem_singleton] at ha
            subst ha
            simpa using hmem
        | ok ids =>
            refine ⟨⟨[⟨i, sidOf t.platform t.selfId, t.channelId,
                if i = 0 then none else some ((dm t.platform).getD 200), p⟩],
                [], [],
                ids.map fun m =>
                  { from_ := ev.messageId
                    to_ := m
                    from_sid := sidOf ev.platform ev.selfId
                    to_sid := sidOf t.platform t.selfId
                    from_channel_id := ev.channelId
                    to_channel_id := t.channelId }⟩,
              by simp [processTarget, hb, hp, hsend], ?_⟩
            intro a ha
            simp only [List.mem_singleton] at ha
            subst ha
            simpa using hmem

/-- The fan-out loop never throws for a quote-safe event, and every
attempted send carries the moderated text element. -/
theorem fanout_ok (w : World) (cfg : RuleSource) (ev : Event) (ft : String)
    (dm : String → Option Nat) (qinfo : Option (QuoteUser × List Sent))
    (hsafe : quoteSafe ev) (ts : List RuleTarget) :
    ∀ i, ∃ f, fanout w cfg ev ft dm qinfo i ts = Except.ok f ∧
      ∀ a ∈ f.sends, Element.text ft ∈ a.payload := by
  induction ts with
  | nil => exact fun i => ⟨⟨[], [], [], []⟩, rfl, by simp⟩
  | cons t ts ih =>
      intro i
      obtain ⟨fh, hh, hmh⟩ := processTarget_ok w cfg ev ft dm qinfo i t hsafe
      obtain ⟨fr, hr, hmr⟩ := ih (i + 1)
      refine ⟨⟨fh.sends ++ fr.sends, fh.skippedBots ++ fr.skippedBots,
        fh.sendErrors ++ fr.sendErrors, fh.sentRows ++ fr.sentRows⟩,
        by simp [fanout, hh, hr], ?_⟩
      intro a ha
      simp only [List.mem_append] at ha
      exact ha.elim (hmh a) (hmr a)

/-- A run that passes the blocking filter, the quote stage and the
empty-text check reaches the fan-out and completes, every attempted send
carrying the moderated text. -/
theorem pipeline_fanout (w : World) (cfg : RuleSource)
    (targets : List RuleTarget) (dm : String → Option Nat) (ev : Event)
    (hblock : blockedBy w cfg ev.elements = false)
    (hstage : ∃ qo, quoteStage w cfg ev = Except.ok qo ∧ qo.isDrop = false)
    (htext : jsBlank (plainTextOf (filteredElements cfg ev)) = false)
    (hsafe : quoteSafe ev) :
    ∃ f, pipeline w cfg targets dm ev = Except.ok (PipelineResult.done f) ∧
      ∀ a ∈ f.sends,
        Element.text (moderate w.modOutcome
          (plainTextOf (filteredElements cfg ev))) ∈ a.payload := by
  obtain ⟨qo, hqo, hdrop⟩ := hstage
  unfold pipeline
  rw [hblock]
  cases qo with
  | drop r => simp [QuoteOutcome.isDrop] at hdrop
  | noQuote =>
      obtain ⟨f, hf, hmem⟩ :=
        fanout_ok w cfg ev
          (moderate w.modOutcome (plainTextOf (filteredElements cfg ev)))
          dm none hsafe targets 0
      exact ⟨f, by simp [hqo, htext, hf], hmem⟩
  | quoted u rows =>
      obtain ⟨f, hf, hmem⟩ :=
        fanout_ok w cfg ev
          (moderate w.modOutcome (plainTextOf (filteredElements cfg ev)))
          dm (some (u, rows)) hsafe targets 0
      exact ⟨f, by simp [hqo, htext, hf], hmem⟩

/-- Every moderation outcome other than a parsed 2xx body with a string
`context` field leaves the text unchanged. -/
theorem moderate_fail_open (o : ModOutcome) (t : String)
    (h : ∀ s, o ≠ ModOutcome.jsonContext (some s)) : moderate o t = t := by
  cases o with
  | jsonContext c =>
      cases c with
      | none => rfl
      | some s => exact absurd rfl (h s)
  | _ => rfl

/-- C3 (amended): moderation is fail-open. For every message that reaches
the moderation stage (not blocked, not dropped by the quote stage, and
non-empty after transform) whose per-target quote fallback can resolve a
display name, any moderation failure — thrown fetch (network error or the
500 ms abort), non-2xx status, or malformed JSON — leaves the delivered
text equal to the pre-moderation transformed plain text, and the pipeline
completes without throwing and without dropping the message; only a 2xx
response whose JSON body contains a string `context` field replaces the
delivered text. -/
theorem moderation_fail_open (w : World) (cfg : RuleSource)
    (targets : List RuleTarget) (dm : String → Option Nat) (ev : Event)
    (hmod : ∀ s, w.modOutcome ≠ ModOutcome.jsonContext (some s))
    (hblock : blockedBy w cfg ev.elements = false)
    (hstage : ∃ qo, quoteStage w cfg ev = Except.ok qo ∧ qo.isDrop = false)
    (htext : jsBlank (plainTextOf (filteredElements cfg ev)) = false)
    (hsafe : quoteSafe ev) :
    (∃ f, pipeline w cfg targets dm ev = Except.ok (PipelineResult.done f) ∧
        ∀ a ∈ f.sends,
          Element.text (plainTextOf (filteredElements cfg ev)) ∈ a.payload) ∧
      (∀ s t, moderate (ModOutcome.jsonContext (some s)) t = s) := by
  refine ⟨?_, fun s t => rfl⟩
  obtain ⟨f, hf, hmem⟩ := pipeline_fanout w cfg targets dm ev hblock hstage htext hsafe
  rw [moderate_fail_open w.modOutcome _ hmod] at hmem
  exact ⟨f, hf, hmem⟩

/-- Witness for C3: a concrete timed-out moderation call on a plain text
message; the single target receives the untouched text. -/
theorem moderation_fail_open_witness :
    (∃ f, pipeline
        { db := []
          bots := fun _ => some Status.online
          regexTest := fun _ _ => false
          modOutcome := ModOutcome.fetchError
          fetchedQuoteUser := Except.error "unused"
          send := fun _ => Except.ok ["o1"] }
        ⟨"tg", "s2", "c2", some "src", [], false⟩
        [⟨"qq", "s1", "c1", false⟩] (fun _ => none)
        { platform := "tg", selfId := "s2", channelId := "c2", messageId := "m2"
          userId := "u7", username := "alice", userAvatar := none
          elements := [Element.text "hi"], quote := none, embeds := [] }
        = Except.ok (PipelineResult.done f) ∧
      ∀ a ∈ f.sends,
        Element.text (plainTextOf (filteredElements
          ⟨"tg", "s2", "c2", some "src", [], false⟩
          { platform := "tg", selfId := "s2", channelId := "c2", messageId := "m2"
            userId := "u7", username := "alice", userAvatar := none
            elements := [Element.text "hi"], quote := none, embeds := [] }))
          ∈ a.payload) ∧
      (∀ s t, moderate (ModOutcome.jsonContext (some s)) t = s) :=
  moderation_fail_open _ _ _ _ _
    (by intro s h; cases h)
    (by rfl)
    ⟨QuoteOutcome.noQuote, by rfl, by rfl⟩
    (by rfl)
    (by intro q hq; cases hq)

/-- C3 counterexample: the claim as stated is violated on one path — a
reply whose quoted author is absent from the event, successfully fetched,
uncorrelated to any record and without a usable member nick makes the
fallback banner read `.nick` of `undefined`; the listener then rejects
with a TypeError even though the moderation failure itself was handled
fail-open, so the pipeline does not complete. -/
theorem moderation_fail_open_counterexample :
    pipeline
      { db := []
        bots := fun _ => some Status.online
        regexTest := fun _ _ => false
        modOutcome := ModOutcome.fetchError
        fetchedQuoteUser := Except.ok ⟨"u9", some "bob", none⟩
        send := fun _ => Except.ok ["o1"] }
      ⟨"tg", "s2", "c2", some "src", [], false⟩
      [⟨"qq", "s1", "c1", false⟩] (fun _ => none)
      { platform := "tg", selfId := "s2", channelId := "c2", messageId := "m2"
        userId := "u7", username := "alice", userAvatar := none
        elements := [Element.text "hi"]
        quote := some ⟨"t9", none, [], none⟩, embeds := [] }
      = Except.error "TypeError: Cannot read properties of undefined" := by
  rfl

/-- C4: a blocking-word hit — some configured pattern of the source
endpoint matching, as a regular expression, the raw content of some text
element — drops the message before any further processing: no send
occurs to any target and no relay record is created. -/
theorem blocking_word_drops (w : World) (cfg : RuleSource)
    (targets : List RuleTarget) (dm : String → Option Nat) (ev : Event)
    (hhit : ∃ pat ∈ cfg.blockingWords, ∃ c,
      Element.text c ∈ ev.elements ∧ w.regexTest pat c = true) :
    pipeline w cfg targets dm ev
        = Except.ok (PipelineResult.dropped DropReason.blockingWord) ∧
      resultSends (pipeline w cfg targets dm ev) = [] ∧
      resultRecords (pipeline w cfg targets dm ev) = [] := by
  obtain ⟨pat, hpat, c, hc, hr⟩ := hhit
  have hb : blockedBy w cfg ev.elements = true := by
    unfold blockedBy
    rw [List.any_eq_true]
    refine ⟨pat, hpat, ?_⟩
    rw [List.any_eq_true]
    exact ⟨Element.text c, hc, by simpa using hr⟩
  have hp : pipeline w cfg targets dm ev
      = Except.ok (PipelineResult.dropped DropReason.blockingWord) := by
    unfold pipeline
    rw [hb]
    rfl
  exact ⟨hp, by rw [hp]; rfl, by rw [hp]; rfl⟩

/-- Witness for C4: the pattern `bad` matches the single text element. -/
theorem blocking_word_drops_witness :
    pipeline
        { db := []
          bots := fun _ => some Status.online
          regexTest := fun pat c => pat == "bad" && c == "so bad"
          modOutcome := ModOutcome.jsonContext none
          fetchedQuoteUser := Except.error "unused"
          send := fun _ => Except.ok ["o1"] }
        ⟨"tg", "s2", "c2", some "src", ["bad"], false⟩
        [⟨"qq", "s1", "c1", false⟩] (fun _ => none)
        { platform := "tg", selfId := "s2", channelId := "c2", messageId := "m2"
          userId := "u7", username := "alice", userAvatar := none
          elements := [Element.text "so bad"], quote := none, embeds := [] }
        = Except.ok (PipelineResult.dropped DropReason.blockingWord) ∧
      resultSends (pipeline
        { db := []
          bots := fun _ => some Status.online
          regexTest := fun pat c => pat == "bad" && c == "so bad"
          modOutcome := ModOutcome.jsonContext none
          fetchedQuoteUser := Except.error "unused"
          send := fun _ => Except.ok ["o1"] }
        ⟨"tg", "s2", "c2", some "src", ["bad"], false⟩
        [⟨"qq", "s1", "c1", false⟩] (fun _ => none)
        { platform := "tg", selfId := "s2", channelId := "c2", messageId := "m2"
          userId := "u7", username := "alice", userAvatar := none
          elements := [Element.text "so bad"], quote := none, embeds := [] }) = [] ∧
      resultRecords (pipeline
        { db := []
          bots := fun _ => some Status.online
          regexTest := fun pat c => pat == "bad" && c == "so bad"
          modOutcome := ModOutcome.jsonContext none
          fetchedQuoteUser := Except.error "unused"
          send := fun _ => Except.ok ["o1"] }
        ⟨"tg", "s2", "c2", some "src", ["bad"], false⟩
        [⟨"qq", "s1", "c1", false⟩] (fun _ => none)
        { platform := "tg", selfId := "s2", channelId := "c2", messageId := "m2"
          userId := "u7", username := "alice", userAvatar := none
          elements := [Element.text "so bad"], quote := none, embeds := [] }) = [] :=
  blocking_word_drops _ _ _ _ _
    ⟨"bad", by simp, "so bad", by simp, by rfl⟩

/-- C7: the code contradicts the spec's containment guarantee. When a
reply's quote metadata lacks the author and the connector fetch of the
quoted message rejects, the listener body has no handler around the
`getMessage` call, so processing of the message aborts with the error
instead of being contained. -/
theorem quote_fetch_failure_propagates :
    pipeline
      { db := []
        bots := fun _ => some Status.online
        regexTest := fun _ _ => false
        modOutcome := ModOutcome.jsonContext none
        fetchedQuoteUser := Except.error "getMessage failed"
        send := fun _ => Except.ok ["o1"] }
      ⟨"tg", "s2", "c2", some "src", [], false⟩
      [⟨"qq", "s1", "c1", false⟩] (fun _ => none)
      { platform := "tg", selfId := "s2", channelId := "c2", messageId := "m2"
        userId := "u7", username := "alice", userAvatar := none
        elements := [Element.text "hi"]
        quote := some ⟨"t9", none, [], none⟩, embeds := [] }
      = Except.error "getMessage failed" := by
  rfl

/-- C1 counterexample: on a state holding one record whose *target*
message id is the quoted id `t1`, a reply quoting the bot's own identity
is correlated by the code to that record — while the direction the claim
states (source columns for a bot-quoted reply) finds nothing. -/
theorem quote_lookup_direction_counterexample :
    quoteStage wSample cfgSample evBotReply
        = Except.ok (QuoteOutcome.quoted uBot [rSample]) ∧
      lookupRowsC1Spec wSample.db evBotReply "t1" true = [] :=
  ⟨rfl, rfl⟩

/-- C1 (amended): the correlation lookup direction, as selected by the
quoted author. When the quoted author is the relaying bot's own identity,
records are looked up whose **target** columns match — `to` equals the
quoted id and `to_sid`/`to_channel_id` match the inbound sid/channel —
dropping under quote-only when nothing matches; otherwise (non-bot
author, endpoint not quote-only), records are looked up whose **source**
columns match — `from` equals the quoted id and
`from_sid`/`from_channel_id` match the inbound sid/channel. -/
theorem quote_lookup_direction (w : World) (cfg : RuleSource) (ev : Event)
    (q : QuoteData) (u : QuoteUser)
    (hq : ev.quote = some q) (hu : resolveQuoteUser w q = Except.ok u) :
    (ev.selfId = u.id →
      (cfg.onlyQuote = false ∨
        (w.db.filter fun r =>
          r.to_ == q.id && r.to_sid == sidOf ev.platform ev.selfId
            && r.to_channel_id == ev.channelId) ≠ []) →
      quoteStage w cfg ev = Except.ok (QuoteOutcome.quoted u
        (w.db.filter fun r =>
          r.to_ == q.id && r.to_sid == sidOf ev.platform ev.selfId
            && r.to_channel_id == ev.channelId))) ∧
    (ev.selfId = u.id → cfg.onlyQuote = true →
      (w.db.filter fun r =>
        r.to_ == q.id && r.to_sid == sidOf ev.platform ev.selfId
          && r.to_channel_id == ev.channelId) = [] →
      quoteStage w cfg ev
        = Except.ok (QuoteOutcome.drop DropReason.quoteOnlyNoRecord)) ∧
    (ev.selfId ≠ u.id → cfg.onlyQuote = false →
      quoteStage w cfg ev = Except.ok (QuoteOutcome.quoted u
        (w.db.filter fun r =>
          r.from_ == q.id && r.from_sid == sidOf ev.platform ev.selfId
            && r.from_channel_id == ev.channelId))) := by
  refine ⟨?_, ?_, ?_⟩
  · intro hbot hne
    simp only [quoteStage, hq, hu, lookupRows, if_pos hbot]
    rcases hne with hoq | hne
    · simp [hoq]
    · simp [List.isEmpty_iff, hne]
  · intro hbot hoq hempty
    simp only [quoteStage, hq, hu, lookupRows, if_pos hbot]
    simp [hoq, List.isEmpty_iff, hempty]
  · intro hbot hoq
    simp only [quoteStage, hq, hu, lookupRows, if_neg hbot]
    simp [hoq]

/-- Witness for C1 (amended) at concrete states: a bot-quoted reply
resolved through the target columns and a non-bot reply resolved through
the source columns. -/
theorem quote_lookup_direction_witness :
    quoteStage wSample cfgSample evBotReply
        = Except.ok (QuoteOutcome.quoted uBot [rSample]) ∧
      quoteStage wSample cfgSampleSrc evUserReply
        = Except.ok (QuoteOutcome.quoted uAlice [rSample]) :=
  ⟨Eq.trans
      ((quote_lookup_direction wSample cfgSample evBotReply
          ⟨"t1", some uBot, [], none⟩ uBot rfl rfl).1 rfl (Or.inl rfl)) rfl,
    Eq.trans
      ((quote_lookup_direction wSample cfgSampleSrc evUserReply
          ⟨"m1", some uAlice, [], none⟩ uAlice rfl rfl).2.2
        (by decide) rfl) rfl⟩

/-- C2: round-trip correlation. Given the prior record mapping source
message `m1` (received on the fan-out target's sid/channel) to target
message `q.id` (the inbound sid/channel), an inbound reply quoting that
target message, whose quoted author is the relaying bot, resolves for the
fan-out target back on the source sid/channel to the structural-quote
payload referencing `m1` — not the textual fallback. -/
theorem round_trip_correlation (w : World) (cfg : RuleSource)
    (t : RuleTarget) (ev : Event) (q : QuoteData) (u : QuoteUser)
    (dm : String → Option Nat) (m1 : String)
    (hdb : w.db = [⟨m1, q.id, sidOf t.platform t.selfId,
      sidOf ev.platform ev.selfId, t.channelId, ev.channelId⟩])
    (hq : ev.quote = some q) (hqu : q.user = some u) (hu : u.id = ev.selfId)
    (hblock : blockedBy w cfg ev.elements = false)
    (hbot : w.bots (sidOf t.platform t.selfId) = some Status.online)
    (htext : jsBlank (plainTextOf (filteredElements cfg ev)) = false) :
    ∃ f, pipeline w cfg [t] dm ev = Except.ok (PipelineResult.done f) ∧
      ∃ a, f.sends = [a] ∧
        a.payload = insertQuote (buildHeader cfg ev t)
          (moderate w.modOutcome (plainTextOf (filteredElements cfg ev))) m1 ∧
        Element.quote m1 ∈ a.payload := by
  have hstage : quoteStage w cfg ev
      = Except.ok (QuoteOutcome.quoted u
          [⟨m1, q.id, sidOf t.platform t.selfId,
            sidOf ev.platform ev.selfId, t.channelId, ev.channelId⟩]) := by
    simp only [quoteStage, hq, resolveQuoteUser, hqu]
    rw [if_pos hu.symm]
    simp [lookupRows, hdb]
  have hpayload : buildPayload ev
      (moderate w.modOutcome (plainTextOf (filteredElements cfg ev)))
      (some (u, [⟨m1, q.id, sidOf t.platform t.selfId,
        sidOf ev.platform ev.selfId, t.channelId, ev.channelId⟩]))
      (buildHeader cfg ev t) (sidOf t.platform t.selfId) t.channelId
      = Except.ok (insertQuote (buildHeader cfg ev t)
          (moderate w.modOutcome (plainTextOf (filteredElements cfg ev))) m1) := by
    simp only [buildPayload, hq, targetQuoteId]
    rw [if_pos hu.symm]
    simp [List.find?]
  have hmem : Element.quote m1 ∈ insertQuote (buildHeader cfg ev t)
      (moderate w.modOutcome (plainTextOf (filteredElements cfg ev))) m1 := by
    cases hh : buildHeader cfg ev t <;> simp [insertQuote]
  cases hsend : w.send 0 with
  | error e =>
      refine ⟨⟨[⟨0, sidOf t.platform t.selfId, t.channelId, none,
          insertQuote (buildHeader cfg ev t)
            (moderate w.modOutcome (plainTextOf (filteredElements cfg ev))) m1⟩],
          [], [e], []⟩, ?_, ?_⟩
      · simp only [pipeline, hblock, hstage, htext]
        simp only [fanout, processTarget, hbot, hsend, hpayload]
        simp
      · exact ⟨_, rfl, rfl, hmem⟩
  | ok ids =>
      refine ⟨⟨[⟨0, sidOf t.platform t.selfId, t.channelId, none,
          insertQuote (buildHeader cfg ev t)
            (moderate w.modOutcome (plainTextOf (filteredElements cfg ev))) m1⟩],
          [], [],
          ids.map fun m =>
            { from_ := ev.messageId
              to_ := m
              from_sid := sidOf ev.platform ev.selfId
              to_sid := sidOf t.platform t.selfId
              from_channel_id := ev.channelId
              to_channel_id := t.channelId }⟩, ?_, ?_⟩
      · simp only [pipeline, hblock, hstage, htext]
        simp only [fanout, processTarget, hbot, hsend, hpayload]
        simp
      · exact ⟨_, rfl, rfl, hmem⟩

/-- Witness for C2: the sample record relayed `m1` from `qq:s1`/`c1` to
`t1` on `tg:s2`/`c2`; a reply there quoting `t1` produces, for the target
back on `qq:s1`/`c1`, a payload whose structural quote references `m1`. -/
theorem round_trip_correlation_witness :
    ∃ f, pipeline wSample cfgSample [tgtSample] (fun _ => none) evBotReply
        = Except.ok (PipelineResult.done f) ∧
      ∃ a, f.sends = [a] ∧
        a.payload = insertQuote (buildHeader cfgSample evBotReply tgtSample)
          (moderate wSample.modOutcome
            (plainTextOf (filteredElements cfgSample evBotReply))) "m1" ∧
        Element.quote "m1" ∈ a.payload :=
  round_trip_correlation wSample cfgSample tgtSample evBotReply
    ⟨"t1", some uBot, [], none⟩ uBot (fun _ => none) "m1"
    rfl rfl rfl rfl rfl rfl rfl

/-- C5 counterexample: under `onlyQuote`, a non-bot-authored reply is
dropped even though a matching relay record exists — the source-column
lookup on the same state is non-empty, yet the pipeline drops the message
instead of forwarding it. -/
theorem quote_only_policy_counterexample :
    lookupRows wSample.db evUserReply "m1" false = [rSample] ∧
      pipeline wSample ⟨"qq", "s1", "c1", some "src", [], true⟩
          [tgtSample] (fun _ => none) evUserReply
        = Except.ok (PipelineResult.dropped DropReason.quoteOnlyNotBot) ∧
      resultSends (pipeline wSample ⟨"qq", "s1", "c1", some "src", [], true⟩
          [tgtSample] (fun _ => none) evUserReply) = [] :=
  ⟨rfl, rfl, rfl⟩

/-- C5 (amended): quote-only policy as the code implements it. An
endpoint with `onlyQuote = true` drops every non-reply message, drops
every reply whose quoted author is a non-bot identity — regardless of
any resolvable record — and drops a reply quoting the bot's own identity
when no record matches by the target columns; a reply quoting the bot's
own identity with a matching record is forwarded. -/
theorem quote_only_policy :
    (∀ (w : World) (cfg : RuleSource) (targets : List RuleTarget)
        (dm : String → Option Nat) (ev : Event),
      cfg.onlyQuote = true → ev.quote = none →
      blockedBy w cfg ev.elements = false →
      pipeline w cfg targets dm ev
        = Except.ok (PipelineResult.dropped DropReason.quoteOnlyNoQuote)) ∧
    (∀ (w : World) (cfg : RuleSource) (targets : List RuleTarget)
        (dm : String → Option Nat) (ev : Event) (q : QuoteData) (u : QuoteUser),
      cfg.onlyQuote = true → ev.quote = some q →
      resolveQuoteUser w q = Except.ok u → ev.selfId ≠ u.id →
      blockedBy w cfg ev.elements = false →
      pipeline w cfg targets dm ev
        = Except.ok (PipelineResult.dropped DropReason.quoteOnlyNotBot)) ∧
    (∀ (w : World) (cfg : RuleSource) (targets : List RuleTarget)
        (dm : String → Option Nat) (ev : Event) (q : QuoteData) (u : QuoteUser),
      cfg.onlyQuote = true → ev.quote = some q →
      resolveQuoteUser w q = Except.ok u → ev.selfId = u.id →
      lookupRows w.db ev q.id true = [] →
      blockedBy w cfg ev.elements = false →
      pipeline w cfg targets dm ev
        = Except.ok (PipelineResult.dropped DropReason.quoteOnlyNoRecord)) ∧
    (∀ (w : World) (cfg : RuleSource) (targets : List RuleTarget)
        (dm : String → Option Nat) (ev : Event) (q : QuoteData) (u : QuoteUser),
      ev.quote = some q →
      resolveQuoteUser w q = Except.ok u → ev.selfId = u.id →
      lookupRows w.db ev q.id true ≠ [] →
      blockedBy w cfg ev.elements = false →
      jsBlank (plainTextOf (filteredElements cfg ev)) = false →
      quoteSafe ev →
      ∃ f, pipeline w cfg targets dm ev
        = Except.ok (PipelineResult.done f)) := by
  refine ⟨?_, ?_, ?_, ?_⟩
  · intro w cfg targets dm ev hoq hq hblock
    have hstage : quoteStage w cfg ev
        = Except.ok (QuoteOutcome.drop DropReason.quoteOnlyNoQuote) := by
      simp [quoteStage, hq, hoq]
    simp [pipeline, hblock, hstage]
  · intro w cfg targets dm ev q u hoq hq hu hne hblock
    have hstage : quoteStage w cfg ev
        = Except.ok (QuoteOutcome.drop DropReason.quoteOnlyNotBot) := by
      simp [quoteStage, hq, hu, hne, hoq]
    simp [pipeline, hblock, hstage]
  · intro w cfg targets dm ev q u hoq hq hu hbot hempty hblock
    have hstage : quoteStage w cfg ev
        = Except.ok (QuoteOutcome.drop DropReason.quoteOnlyNoRecord) := by
      simp [quoteStage, hq, hu, hbot, hoq, hempty, List.isEmpty_iff]
    simp [pipeline, hblock, hstage]
  · intro w cfg targets dm ev q u hq hu hbot hne hblock htext hsafe
    have hstage : quoteStage w cfg ev
        = Except.ok (QuoteOutcome.quoted u (lookupRows w.db ev q.id true)) := by
      simp [quoteStage, hq, hu, hbot, List.isEmpty_iff, hne]
    obtain ⟨f, hf, _⟩ := pipeline_fanout w cfg targets dm ev hblock
      ⟨QuoteOutcome.quoted u (lookupRows w.db ev q.id true), hstage, rfl⟩
      htext hsafe
    exact ⟨f, hf⟩

/-- Witness for C5 (amended): the four policy outcomes at concrete
inputs — a non-reply dropped, a non-bot reply dropped, a bot reply
without a record dropped, a bot reply with the sample record forwarded. -/
theorem quote_only_policy_witness :
    pipeline wSample ⟨"tg", "s2", "c2", some "src", [], true⟩
        [tgtSample] (fun _ => none) { evBotReply with quote := none }
      = Except.ok (PipelineResult.dropped DropReason.quoteOnlyNoQuote) ∧
    pipeline wSample ⟨"qq", "s1", "c1", some "src", [], true⟩
        [tgtSample] (fun _ => none) evUserReply
      = Except.ok (PipelineResult.dropped DropReason.quoteOnlyNotBot) ∧
    pipeline { wSample with db := [] } ⟨"tg", "s2", "c2", some "src", [], true⟩
        [tgtSample] (fun _ => none) evBotReply
      = Except.ok (PipelineResult.dropped DropReason.quoteOnlyNoRecord) ∧
    (∃ f, pipeline wSample ⟨"tg", "s2", "c2", some "src", [], true⟩
        [tgtSample] (fun _ => none) evBotReply
      = Except.ok (PipelineResult.done f)) := by
  refine ⟨?_, ?_, ?_, ?_⟩
  · exact quote_only_policy.1 wSample _ [tgtSample] (fun _ => none)
      { evBotReply with quote := none } rfl rfl rfl
  · exact quote_only_policy.2.1 wSample _ [tgtSample] (fun _ => none)
      evUserReply ⟨"m1", some uAlice, [], none⟩ uAlice rfl rfl rfl
      (by decide) rfl
  · exact quote_only_policy.2.2.1 { wSample with db := [] } _ [tgtSample]
      (fun _ => none) evBotReply ⟨"t1", some uBot, [], none⟩ uBot rfl rfl
      rfl rfl rfl rfl
  · exact quote_only_policy.2.2.2 wSample _ [tgtSample] (fun _ => none)
      evBotReply ⟨"t1", some uBot, [], none⟩ uBot rfl rfl rfl
      (by decide) rfl rfl
      (by intro q hq
          have h := Option.some.inj hq
          subst h
          exact Or.inr (by simp))

/-- A fan-out step for a non-reply message whose target bot is online:
exactly one send is attempted, to the target's sid, paced by the
per-platform delay (default 200) except at loop index 0, and nothing is
skipped. -/
theorem processTarget_online_noquote (w : World) (cfg : RuleSource)
    (ev : Event) (ft : String) (dm : String → Option Nat) (i : Nat)
    (t : RuleTarget) (hq : ev.quote = none)
    (hb : w.bots (sidOf t.platform t.selfId) = some Status.online) :
    ∃ f, processTarget w cfg ev ft dm none i t = Except.ok f ∧
      f.sends.map (fun a => (a.targetSid, a.delayBefore))
        = [(sidOf t.platform t.selfId,
            if i = 0 then none else some ((dm t.platform).getD 200))] ∧
      f.skippedBots = [] := by
  have hp : buildPayload ev ft none (buildHeader cfg ev t)
      (sidOf t.platform t.selfId) t.channelId
      = Except.ok [buildHeader cfg ev t, Element.text ft] := by
    simp [buildPayload, hq]
  cases hsend : w.send i with
  | error e =>
      exact ⟨⟨[⟨i, sidOf t.platform t.selfId, t.channelId,
          if i = 0 then none else some ((dm t.platform).getD 200),
          [buildHeader cfg ev t, Element.text ft]⟩], [], [e], []⟩,
        by simp [processTarget, hb, hp, hsend], by simp, rfl⟩
  | ok ids =>
      exact ⟨⟨[⟨i, sidOf t.platform t.selfId, t.channelId,
          if i = 0 then none else some ((dm t.platform).getD 200),
          [buildHeader cfg ev t, Element.text ft]⟩], [], [],
          ids.map fun m =>
            { from_ := ev.messageId
              to_ := m
              from_sid := sidOf ev.platform ev.selfId
              to_sid := sidOf t.platform t.selfId
              from_channel_id := ev.channelId
              to_channel_id := t.channelId }⟩,
        by simp [processTarget, hb, hp, hsend], by simp, rfl⟩

/-- A fan-out step whose target bot is missing or not online attempts no
send, stages no record, and records the sid as skipped. -/
theorem processTarget_unavailable (w : World) (cfg : RuleSource)
    (ev : Event) (ft : String) (dm : String → Option Nat)
    (qinfo : Option (QuoteUser × List Sent)) (i : Nat) (t : RuleTarget)
    (hb : ∀ st, w.bots (sidOf t.platform t.selfId) = some st →
      st ≠ Status.online) :
    processTarget w cfg ev ft dm qinfo i t
      = Except.ok ⟨[], [sidOf t.platform t.selfId], [], []⟩ := by
  cases hw : w.bots (sidOf t.platform t.selfId) with
  | none => simp [processTarget, hw]
  | some st => simp [processTarget, hw, hb st hw]

/-- C6: fan-out with an unavailable middle target. For a rule with
targets `[A, B, C]` where `B`'s bot instance is missing or not online,
sends are attempted to `A` and `C` only, in that order; `B` is recorded
as skipped without aborting the fan-out; `A`, first in the list, is sent
without a pacing delay, while `C` (loop index 2) is preceded by its
platform's configured delay, defaulting to 200 ms. -/
theorem offline_target_skipped (w : World) (cfg : RuleSource)
    (dm : String → Option Nat) (ev : Event) (A B C : RuleTarget)
    (hq : ev.quote = none) (honly : cfg.onlyQuote = false)
    (hblock : blockedBy w cfg ev.elements = false)
    (htext : jsBlank (plainTextOf (filteredElements cfg ev)) = false)
    (hA : w.bots (sidOf A.platform A.selfId) = some Status.online)
    (hB : ∀ st, w.bots (sidOf B.platform B.selfId) = some st →
      st ≠ Status.online)
    (hC : w.bots (sidOf C.platform C.selfId) = some Status.online) :
    ∃ f, pipeline w cfg [A, B, C] dm ev = Except.ok (PipelineResult.done f) ∧
      f.sends.map (fun a => (a.targetSid, a.delayBefore))
        = [(sidOf A.platform A.selfId, none),
           (sidOf C.platform C.selfId, some ((dm C.platform).getD 200))] ∧
      f.skippedBots = [sidOf B.platform B.selfId] := by
  have hstage : quoteStage w cfg ev = Except.ok QuoteOutcome.noQuote := by
    simp [quoteStage, hq, honly]
  obtain ⟨fA, hfA, hmapA, hskipA⟩ :=
    processTarget_online_noquote w cfg ev
      (moderate w.modOutcome (plainTextOf (filteredElements cfg ev))) dm 0 A hq hA
  have hfB := processTarget_unavailable w cfg ev
    (moderate w.modOutcome (plainTextOf (filteredElements cfg ev))) dm none 1 B hB
  obtain ⟨fC, hfC, hmapC, hskipC⟩ :=
    processTarget_online_noquote w cfg ev
      (moderate w.modOutcome (plainTextOf (filteredElements cfg ev))) dm 2 C hq hC
  refine ⟨⟨fA.sends ++ ([] ++ (fC.sends ++ [])),
      fA.skippedBots ++ ([sidOf B.platform B.selfId] ++ (fC.skippedBots ++ [])),
      fA.sendErrors ++ ([] ++ (fC.sendErrors ++ [])),
      fA.sentRows ++ ([] ++ (fC.sentRows ++ []))⟩, ?_, ?_, ?_⟩
  · simp only [pipeline, hblock, hstage, htext]
    simp only [fanout, hfA, hfB, hfC]
    simp
  · simp [hmapA, hmapC]
  · simp [hskipA, hskipC]

/-- Witness for C6: targets on platforms `qq`, `mc`, `tg`; the `mc` bot
is absent from the registry; the `tg` delivery is paced with the default
200 ms delay. -/
theorem offline_target_skipped_witness :
    ∃ f, pipeline
        { db := []
          bots := fun s => if s = "mc:s9" then none else some Status.online
          regexTest := fun _ _ => false
          modOutcome := ModOutcome.jsonContext none
          fetchedQuoteUser := Except.error "unused"
          send := fun _ => Except.ok ["o1"] }
        cfgSample [tgtSample, ⟨"mc", "s9", "c9", false⟩, ⟨"tg", "s3", "c3", false⟩]
        (fun _ => none) { evBotReply with quote := none }
        = Except.ok (PipelineResult.done f) ∧
      f.sends.map (fun a => (a.targetSid, a.delayBefore))
        = [("qq:s1", none), ("tg:s3", some 200)] ∧
      f.skippedBots = ["mc:s9"] := by
  obtain ⟨f, hf, hmap, hskip⟩ :=
    offline_target_skipped
      { db := []
        bots := fun s => if s = "mc:s9" then none else some Status.online
        regexTest := fun _ _ => false
        modOutcome := ModOutcome.jsonContext none
        fetchedQuoteUser := Except.error "unused"
        send := fun _ => Except.ok ["o1"] }
      cfgSample (fun _ => none) { evBotReply with quote := none }
      tgtSample ⟨"mc", "s9", "c9", false⟩ ⟨"tg", "s3", "c3", false⟩
      rfl rfl rfl rfl rfl (by intro st h; exact Option.noConfusion h) rfl
  exact ⟨f, hf, by simpa using hmap, by simpa using hskip⟩

/-- C9 counterexample: a non-telegram source providing no avatar. The
claim substitutes the default avatar exactly when the source provides
none, but the code keys the substitution on the platform being telegram:
it leaves the avatar absent here, so the two constructions differ. -/
theorem header_construction_counterexample :
    buildHeader cfgSampleSrc evUserReply ⟨"discord", "d1", "c5", true⟩
        = Element.author "[src] carol" none ∧
      buildHeaderC9Spec cfgSampleSrc evUserReply ⟨"discord", "d1", "c5", true⟩
        = Element.author "[src] carol" (some defaultAvatar) ∧
      buildHeader cfgSampleSrc evUserReply ⟨"discord", "d1", "c5", true⟩
        ≠ buildHeaderC9Spec cfgSampleSrc evUserReply ⟨"discord", "d1", "c5", true⟩ :=
  ⟨rfl, rfl, by decide⟩

/-- C9 (amended): header construction per target. The prefix is the
author-simulation marker exactly when the target endpoint requests
`simulateOriginal` and the target platform is discord, carrying
`[<source-name>] <username>` and the sender's avatar — with the default
avatar substituted exactly when the source platform is telegram; for
every other target the prefix is the plain banner
`[<source-name> - <username>]` with trailing newline, the name and
separator omitted when the source has no truthy name. -/
theorem header_construction (cfg : RuleSource) (ev : Event) (t : RuleTarget) :
    (t.simulateOriginal = true → t.platform = "discord" →
      buildHeader cfg ev t
        = Element.author ("[" ++ cfg.name.getD "" ++ "] " ++ ev.username)
            (if ev.platform = "telegram" then some defaultAvatar
             else ev.userAvatar)) ∧
    (t.simulateOriginal = false ∨ t.platform ≠ "discord" →
      buildHeader cfg ev t
        = Element.text ("[" ++ (if strTruthy cfg.name
            then cfg.name.getD "" ++ " - " else "")
            ++ ev.username ++ "]\n")) := by
  constructor
  · intro hs hp
    simp [buildHeader, hs, hp]
  · intro h
    have hcond : (t.simulateOriginal && t.platform == "discord") = false := by
      rcases h with h | h <;> simp [h]
    simp [buildHeader, hcond]

/-- Witness for C9 (amended): a simulating discord target for a
non-telegram source keeps the absent avatar; a non-simulating target gets
the text banner. -/
theorem header_construction_witness :
    buildHeader cfgSampleSrc evUserReply ⟨"discord", "d1", "c5", true⟩
        = Element.author "[src] carol" none ∧
      buildHeader cfgSampleSrc evUserReply tgtSample
        = Element.text "[src - carol]\n" :=
  ⟨Eq.trans
      ((header_construction cfgSampleSrc evUserReply
          ⟨"discord", "d1", "c5", true⟩).1 rfl rfl) rfl,
    Eq.trans
      ((header_construction cfgSampleSrc evUserReply tgtSample).2
        (Or.inl rfl)) rfl⟩

/-- An all-image element sequence transforms to nothing. -/
theorem transform_all_image (l : List Element) (rules : TransformRules)
    (h : ∀ e ∈ l, e = Element.image) : transform l rules = [] := by
  induction l with
  | nil => rfl
  | cons e tl ih =>
      have he : e = Element.image := h e (List.mem_cons_self e tl)
      subst he
      simp only [transform, List.filterMap] at ih ⊢
      exact ih fun x hx => h x (List.mem_cons_of_mem _ hx)

/-- C10: Discord embed texts. On a discord source, the transformed
sequence is the main-body transform followed by one extra text element
per embed with truthy title or description — title and description joined
by a newline — placed before the empty-text check; consequently a discord
message with no text content (image-only) but a non-blank embed is still
forwarded rather than dropped as empty. -/
theorem discord_embed_appended :
    (∀ (cfg : RuleSource) (ev : Event), ev.platform = "discord" →
      filteredElements cfg ev
        = transform ev.elements ⟨some (mainAtRule cfg ev)⟩
            ++ ev.embeds.filterMap (fun e => (embedText e).map Element.text)) ∧
    (∀ ti de : String, ti ≠ "" → de ≠ "" →
      embedText ⟨some ti, some de⟩ = some (ti ++ "\n" ++ de)) ∧
    (∀ (w : World) (cfg : RuleSource) (targets : List RuleTarget)
        (dm : String → Option Nat) (ev : Event),
      ev.platform = "discord" →
      (∀ e ∈ ev.elements, e = Element.image) →
      ev.quote = none → cfg.onlyQuote = false →
      blockedBy w cfg ev.elements = false →
      jsBlank (plainTextOf (ev.embeds.filterMap
        (fun e => (embedText e).map Element.text))) = false →
      ∃ f, pipeline w cfg targets dm ev
        = Except.ok (PipelineResult.done f)) := by
  refine ⟨?_, ?_, ?_⟩
  · intro cfg ev hp
    simp [filteredElements, hp]
  · intro ti de hti hde
    simp [embedText, strTruthy, hti, hde, String.intercalate,
      String.intercalate.go]
  · intro w cfg targets dm ev hp himg hq honly hblock hblank
    have hstage : quoteStage w cfg ev = Except.ok QuoteOutcome.noQuote := by
      simp [quoteStage, hq, honly]
    have hfe : filteredElements cfg ev
        = ev.embeds.filterMap (fun e => (embedText e).map Element.text) := by
      simp [filteredElements, hp, transform_all_image ev.elements _ himg]
    have htext : jsBlank (plainTextOf (filteredElements cfg ev)) = false := by
      rw [hfe]; exact hblank
    obtain ⟨f, hf, _⟩ := pipeline_fanout w cfg targets dm ev hblock
      ⟨QuoteOutcome.noQuote, hstage, rfl⟩ htext
      (by intro q hquote; rw [hq] at hquote; cases hquote)
    exact ⟨f, hf⟩

/-- Witness for C10: an image-only discord message carrying one embed
with title `Title` and description `Desc` is transformed to the single
text element `Title\nDesc` and forwarded. -/
theorem discord_embed_appended_witness :
    filteredElements cfgSample
        { platform := "discord", selfId := "s2", channelId := "c2"
          messageId := "m2", userId := "u7", username := "alice"
          userAvatar := none, elements := [Element.image], quote := none
          embeds := [⟨some "Title", some "Desc"⟩] }
        = [Element.text "Title\nDesc"] ∧
      embedText ⟨some "Title", some "Desc"⟩ = some ("Title" ++ "\n" ++ "Desc") ∧
      ∃ f, pipeline wSample cfgSample [tgtSample] (fun _ => none)
        { platform := "discord", selfId := "s2", channelId := "c2"
          messageId := "m2", userId := "u7", username := "alice"
          userAvatar := none, elements := [Element.image], quote := none
          embeds := [⟨some "Title", some "Desc"⟩] }
        = Except.ok (PipelineResult.done f) :=
  ⟨Eq.trans
      (discord_embed_appended.1 cfgSample
        { platform := "discord", selfId := "s2", channelId := "c2"
          messageId := "m2", userId := "u7", username := "alice"
          userAvatar := none, elements := [Element.image], quote := none
          embeds := [⟨some "Title", some "Desc"⟩] } rfl) rfl,
    discord_embed_appended.2.1 "Title" "Desc" (by decide) (by decide),
    discord_embed_appended.2.2 wSample cfgSample [tgtSample] (fun _ => none)
      { platform := "discord", selfId := "s2", channelId := "c2"
        messageId := "m2", userId := "u7", username := "alice"
        userAvatar := none, elements := [Element.image], quote := none
        embeds := [⟨some "Title", some "Desc"⟩] }
      rfl (by intro e he; simpa using he) rfl rfl rfl rfl⟩

end KoishiForward
